import Mathlib

/-!
# Verification of the Elevate RBAC / data-scoping engine

Shallow embedding of the permission engine in `backend/server.py`:
role-permission configuration, module-permission merging
(`_merge_module_perms`), effective-permission resolution
(`_get_effective_permissions`), the enforcement gate (`_has_perm`,
`_require_perm`), the customer scope-to-filter translation
(`_customer_scope_query`), the scoped single-entity fetch
(`_get_customer_or_404`), the customer list/read/update endpoints, and
the TTL-cached settings store (`_ensure_settings`, `update_settings`).

Python dictionaries are embedded as association lists (`List (String × _)`);
a key that is absent, or present with a falsy value, reads back through
`.get`-style accessors exactly as in the source (absence and `None`
collapse to `Option.none`, truthiness of stored values to `Bool`).
-/

namespace Elevate

/-- Association-list read, mirroring Python `d.get(k)`. -/
def dictGet {α : Type} (d : List (String × α)) (k : String) : Option α :=
  d.lookup k

/-- Association-list write, mirroring Python `d[k] = v`: replaces the
value of an existing key in place, otherwise appends the binding. -/
def dictSet {α : Type} (d : List (String × α)) (k : String) (v : α) :
    List (String × α) :=
  if (d.lookup k).isSome then
    d.map (fun p => if p.1 = k then (k, v) else p)
  else
    d ++ [(k, v)]

/-- A module permission fragment, one value of the per-role `modules` dict.
`enabled`/`scope` are `Option` because the corresponding Python dict key may
be absent (absence and a stored `None` both read back as `none`, exactly as
`.get` returns `None` for both); an empty `actions` list stands for an
absent or empty `actions` key, observationally identical through
`actions.get(k)`. `fieldPolicy` models the only `extra` key the code ever
reads, `"field_policy"`. -/
structure ModulePerm where
  enabled : Option Bool
  scope : Option String
  actions : List (String × Bool)
  fieldPolicy : Option String
deriving Repr, DecidableEq

/-- The empty Python dict `{}` used to seed the merge fold. -/
def ModulePerm.empty : ModulePerm :=
  { enabled := none, scope := none, actions := [], fieldPolicy := none }

/-- Python `bool(actions.get(k))`: absent keys read as `False`. -/
def actionsGet (actions : List (String × Bool)) (k : String) : Bool :=
  (dictGet actions k).getD false

/-- Implements `_scope_rank` from server.py: `{"none": 0, None: 0, "own": 1,
"team": 2, "all": 3}.get(scope, 0)` — unknown or missing scopes rank 0. -/
def scopeRank (scope : Option String) : Nat :=
  match scope with
  | none => 0
  | some "none" => 0
  | some "own" => 1
  | some "team" => 2
  | some "all" => 3
  | some _ => 0

/-- The action-dict part of `_merge_module_perms`:
`actions = {**out.actions}; for k, v in b.actions: actions[k] =
bool(actions.get(k)) or bool(v)`. -/
def mergeActions (a b : List (String × Bool)) : List (String × Bool) :=
  b.foldl (fun acc kv => dictSet acc kv.1 (actionsGet acc kv.1 || kv.2)) a

/-- Implements `_merge_module_perms(a, b)` from server.py: OR the booleans (only when
`b` carries an `enabled` key), keep the widest scope with ties going to
`a.scope`, OR the actions over the union of keys, and let `b`'s
non-reserved extra keys (here: `field_policy`) override `a`'s. -/
def mergeModulePerms (a b : ModulePerm) : ModulePerm :=
  { enabled :=
      if b.enabled.isSome then
        some (a.enabled.getD false || b.enabled.getD false)
      else a.enabled
  , scope := if scopeRank a.scope ≥ scopeRank b.scope then a.scope else b.scope
  , actions := mergeActions a.actions b.actions
  , fieldPolicy := if b.fieldPolicy.isSome then b.fieldPolicy else a.fieldPolicy }

/-- An effective (or per-role) module map: the `{moduleKey: ModulePerm}`
dict. The per-role `{"modules": {...}}` wrapper of the configuration is
flattened away, matching the `rp.get("modules") or {}` read. -/
abbrev Modules := List (String × ModulePerm)

/-- The role-permission configuration: role name → module map
(`settings["role_permissions"]`). -/
abbrev RoleConfig := List (String × Modules)

/-- A user as the relevant fields of a `users` document / JWT payload:
`id`, the `roles` list, the legacy single `role` field, `manager_id`,
and display `name`. Empty strings stand for absent/empty values, the
way the code's truthiness tests treat them. -/
structure User where
  id : String
  roles : List String
  role : Option String
  managerId : Option String
  name : String
deriving Repr, DecidableEq

/-- Implements `_roles(current_user)`: prefer the non-empty `roles` list (dropping
falsy entries), else the single legacy `role` field, else `[]`. -/
def rolesOf (u : User) : List String :=
  if u.roles ≠ [] then u.roles.filter (fun r => r ≠ "")
  else match u.role with
    | some r => [r]
    | none => []

/-- Implements `_get_effective_permissions(current_user)`: fold every held role's
module map through `_merge_module_perms`, seeding each module with the
empty dict; an empty role list falls back to `["READ_ONLY"]`
(`roles = _roles(current_user) or ["READ_ONLY"]`), and a role absent
from the configuration contributes nothing (`role_perms.get(r) or {}`). -/
def getEffectivePermissions (config : RoleConfig) (userRoles : List String) :
    Modules :=
  let roles := if userRoles = [] then ["READ_ONLY"] else userRoles
  roles.foldl
    (fun eff r =>
      ((dictGet config r).getD []).foldl
        (fun acc modMp =>
          dictSet acc modMp.1
            (mergeModulePerms ((dictGet acc modMp.1).getD ModulePerm.empty)
              modMp.2))
        eff)
    []

/-- Implements `_has_perm(effective, module_key, action)`: deny when the module is
not enabled; with no action requested, enablement suffices; otherwise the
action's flag decides (absent keys are false). -/
def hasPerm (eff : Modules) (moduleKey : String) (action : Option String) :
    Bool :=
  let md := (dictGet eff moduleKey).getD ModulePerm.empty
  if !(md.enabled.getD false) then false
  else
    match action with
    | none => true
    | some a => actionsGet md.actions a

/-- Outcome of `_require_perm`: HTTP 403 or the effective module map. -/
inductive PermResult where
  | denied
  | ok (eff : Modules)
deriving Repr, DecidableEq

/-- Implements `_require_perm(current_user, module_key, action)`: resolve effective
permissions, raise 403 unless `_has_perm` grants, else return them. -/
def requirePerm (config : RoleConfig) (u : User) (moduleKey : String)
    (action : Option String) : PermResult :=
  let eff := getEffectivePermissions config (rolesOf u)
  if hasPerm eff moduleKey action then .ok eff else .denied

/-- The constant `ROLE_ADMINISH = {"ADMIN", "CS_OPS", "CS_LEADER"}`. -/
def ROLE_ADMINISH : List String := ["ADMIN", "CS_OPS", "CS_LEADER"]

/-- A customer document as stored in `db.customers`: a Mongo document,
embedded as a field-name → value association list (values kept opaque as
strings). -/
abbrev Doc := List (String × String)

/-- Computes `managed_csm_ids` inside `_customer_scope_query`: the ids of users
matching `{"manager_id": uid, "$or": [{"role": "CSM"}, {"roles":
{"$in": ["CSM"]}}]}`, dropping falsy ids
(`[u.get("id") for u in managed_csms if u.get("id")]`). -/
def managedCsmIds (users : List User) (uid : String) : List String :=
  ((users.filter fun v =>
      v.managerId = some uid ∧ (v.role = some "CSM" ∨ "CSM" ∈ v.roles)).map
    (fun v => v.id)).filter (fun i => i ≠ "")

/-- The four filter shapes `_customer_scope_query` can return:
`{}` (unrestricted), `{"id": "__none__"}` (matches no real customer),
`{"csm_owner_id": uid}` (own), and
`{"$or": [{"am_owner_id": uid}, {"csm_owner_id": {"$in": csmIds}}]}`
(team). -/
inductive CustomerFilter where
  | all
  | noneMatch
  | own (uid : String)
  | team (uid : String) (csmIds : List String)
deriving Repr, DecidableEq

/-- Mongo evaluation of a scope filter against a customer document.
An equality filter on a field matches only documents where the field is
present with that value. -/
def filterMatches (f : CustomerFilter) (d : Doc) : Bool :=
  match f with
  | .all => true
  | .noneMatch => dictGet d "id" == some "__none__"
  | .own uid => dictGet d "csm_owner_id" == some uid
  | .team uid csmIds =>
      dictGet d "am_owner_id" == some uid ||
        csmIds.any (fun i => dictGet d "csm_owner_id" == some i)

/-- Implements `_customer_scope_query(current_user)`: admin-ish roles short-circuit
to the unrestricted filter; SALES sees everything unless a narrower scope
was configured; otherwise the configured scope and the CSM/AM role
fallbacks pick the filter, defaulting to the impossible
`{"id": "__none__"}` predicate. -/
def customerScopeQuery (config : RoleConfig) (users : List User) (u : User) :
    CustomerFilter :=
  let roles := rolesOf u
  let uid := u.id
  if roles.any (fun r => r ∈ ROLE_ADMINISH) then .all
  else
    let eff := getEffectivePermissions config roles
    let configuredScope :=
      ((dictGet eff "customers").getD ModulePerm.empty).scope
    if "SALES" ∈ roles then
      if configuredScope = none ∨ configuredScope = some "all" then .all
      else .noneMatch
    else if configuredScope = some "own" ∨
        ("CSM" ∈ roles ∧ "AM" ∉ roles) then .own uid
    else if configuredScope = some "team" ∨ "AM" ∈ roles then
      .team uid (managedCsmIds users uid)
    else if configuredScope = some "all" then .all
    else .noneMatch

/-- The `find_one` query of `_get_customer_or_404`: `{"id": customer_id}`
merged with the scope dict via `query.update(scope)`. When the scope is
the `{"id": "__none__"}` predicate its `"id"` key overwrites the
requested id; every other scope shape has disjoint keys, so the update is
a conjunction. -/
def lookupQueryMatches (f : CustomerFilter) (cid : String) (d : Doc) : Bool :=
  match f with
  | .noneMatch => dictGet d "id" == some "__none__"
  | _ => dictGet d "id" == some cid && filterMatches f d

/-- Implements `_get_customer_or_404(customer_id, current_user)` up to the 404:
`none` models the raised 404, used both when the id does not exist and
when it exists outside the caller's scope. -/
def getCustomerOr404 (config : RoleConfig) (users : List User)
    (store : List Doc) (cid : String) (u : User) : Option Doc :=
  let scope := customerScopeQuery config users u
  store.find? (lookupQueryMatches scope cid)

/-- Shorthand for `{"enabled": True}`. -/
def mpEnabled : ModulePerm :=
  { enabled := some true, scope := none, actions := [], fieldPolicy := none }

/-- Shorthand for `{"enabled": False}`. -/
def mpDisabled : ModulePerm :=
  { enabled := some false, scope := none, actions := [], fieldPolicy := none }

/-- Shorthand for `{"enabled": True, "scope": s, "actions": {"create": c,
"edit": e, "delete": d}}`. -/
def mpCED (scope : String) (c e d : Bool) : ModulePerm :=
  { enabled := some true, scope := some scope
  , actions := [("create", c), ("edit", e), ("delete", d)]
  , fieldPolicy := none }

/-- Shorthand for `{"enabled": True, "scope": s, "actions": {"create": c,
"delete": d}}` (the `documents` module has no `edit` action). -/
def mpCD (scope : String) (c d : Bool) : ModulePerm :=
  { enabled := some true, scope := some scope
  , actions := [("create", c), ("delete", d)]
  , fieldPolicy := none }

/-- Implements `_default_role_permissions()` from server.py, transcribed role by
role and module by module. -/
def defaultRolePermissions : RoleConfig :=
  [ ("ADMIN",
      [ ("dashboard", mpEnabled)
      , ("customers", mpCED "all" true true true)
      , ("activities", mpCED "all" true true true)
      , ("risks", mpCED "all" true true true)
      , ("opportunities", mpCED "all" true true true)
      , ("tasks", mpCED "all" true true true)
      , ("datalabs_reports", mpCED "all" true true true)
      , ("documents", mpCD "all" true true)
      , ("exports", mpEnabled)
      , ("users", mpEnabled)
      , ("settings", mpEnabled) ])
  , ("CS_OPS",
      [ ("dashboard", mpEnabled)
      , ("customers", mpCED "all" true true true)
      , ("activities", mpCED "all" true true true)
      , ("risks", mpCED "all" true true true)
      , ("opportunities", mpCED "all" true true true)
      , ("tasks", mpCED "all" true true true)
      , ("datalabs_reports", mpCED "all" true true true)
      , ("documents", mpCD "all" true true)
      , ("exports", mpEnabled)
      , ("users", mpEnabled)
      , ("settings", mpEnabled) ])
  , ("CS_LEADER",
      [ ("dashboard", mpEnabled)
      , ("customers", mpCED "all" true true false)
      , ("activities", mpCED "all" true true false)
      , ("risks", mpCED "all" true true false)
      , ("opportunities", mpCED "all" true true false)
      , ("tasks", mpCED "all" true true false)
      , ("datalabs_reports", mpCED "all" true false false)
      , ("documents", mpCD "all" true false)
      , ("exports", mpEnabled)
      , ("users", mpEnabled)
      , ("settings", mpDisabled) ])
  , ("CSM",
      [ ("dashboard", mpEnabled)
      , ("customers", mpCED "own" true true false)
      , ("activities", mpCED "own" true true false)
      , ("risks", mpCED "own" true true false)
      , ("opportunities", mpCED "own" true true false)
      , ("tasks", mpCED "own" true true false)
      , ("datalabs_reports", mpCED "own" true false false)
      , ("documents", mpCD "own" true true)
      , ("exports", mpDisabled)
      , ("users", mpDisabled)
      , ("settings", mpDisabled) ])
  , ("AM",
      [ ("dashboard", mpEnabled)
      , ("customers", mpCED "team" true true false)
      , ("activities", mpCED "team" true true false)
      , ("risks", mpCED "team" true true false)
      , ("opportunities", mpCED "team" true true false)
      , ("tasks", mpCED "team" true true false)
      , ("datalabs_reports", mpCED "team" true false false)
      , ("documents", mpCD "team" true true)
      , ("exports", mpDisabled)
      , ("users", mpEnabled)
      , ("settings", mpDisabled) ])
  , ("SALES",
      [ ("dashboard", mpEnabled)
      , ("customers",
          { enabled := some true, scope := some "all"
          , actions := [("create", false), ("edit", false), ("delete", false)]
          , fieldPolicy := some "sales_limited" })
      , ("opportunities", mpCED "all" false true false)
      , ("activities", mpDisabled)
      , ("risks", mpDisabled)
      , ("tasks", mpDisabled)
      , ("datalabs_reports", mpDisabled)
      , ("documents", mpDisabled)
      , ("exports", mpDisabled)
      , ("users", mpDisabled)
      , ("settings", mpDisabled) ])
  , ("READ_ONLY",
      [ ("dashboard", mpEnabled)
      , ("customers", mpCED "own" false false false)
      , ("activities", mpCED "own" false false false)
      , ("risks", mpCED "own" false false false)
      , ("opportunities", mpCED "own" false false false)
      , ("tasks", mpCED "own" false false false)
      , ("datalabs_reports", mpCED "own" false false false)
      , ("documents", mpCD "own" false false)
      , ("exports", mpDisabled)
      , ("users", mpDisabled)
      , ("settings", mpDisabled) ]) ]

/-- The include-projection built in `get_customers` for
`field_policy == "sales_limited"` (the `"_id": 0` exclusion is implicit:
the embedding carries no `_id`). -/
def salesLimitedProjection : List String :=
  [ "id", "company_name", "arr", "renewal_date", "health_score"
  , "health_status", "account_status", "csm_owner_name", "am_owner_name"
  , "region", "industry" ]

/-- The `allowed` set of `get_customer` for
`field_policy == "sales_limited"`. -/
def salesAllowedFields : List String :=
  [ "id", "company_name", "arr", "renewal_date", "health_score"
  , "health_status", "account_status", "csm_owner_name", "am_owner_name"
  , "region", "industry" ]

/-- Endpoint `GET /api/customers` (`get_customers`): gate on the `customers`
module, translate the scope, fetch matching rows (Mongo's
`to_list(1000)` cap included), and — for a sales-limited caller — let the
include-projection keep only the allow-listed fields of each document.
The `created_at`/`updated_at` string→datetime round-trip is not modelled
(it rewrites values of fields no claim mentions). `error` is the 403. -/
def getCustomers (config : RoleConfig) (users : List User)
    (store : List Doc) (u : User) : Except Unit (List Doc) :=
  match requirePerm config u "customers" none with
  | .denied => .error ()
  | .ok eff =>
    let scope := customerScopeQuery config users u
    let customerMod := (dictGet eff "customers").getD ModulePerm.empty
    let rows := (store.filter (filterMatches scope)).take 1000
    if customerMod.fieldPolicy = some "sales_limited" then
      .ok (rows.map (fun d => d.filter (fun kv => kv.1 ∈ salesLimitedProjection)))
    else .ok rows

/-- Endpoint `GET /api/customers/{customer_id}` (`get_customer`): gate, scoped
single-entity fetch, then the sales-limited field comprehension
`{k: v for k, v in customer.items() if k in allowed}`. Errors carry the
HTTP status (403 or 404). -/
def getCustomer (config : RoleConfig) (users : List User) (store : List Doc)
    (u : User) (cid : String) : Except Nat Doc :=
  match requirePerm config u "customers" none with
  | .denied => .error 403
  | .ok eff =>
    match getCustomerOr404 config users store cid u with
    | none => .error 404
    | some customer =>
      let customerMod := (dictGet eff "customers").getD ModulePerm.empty
      if customerMod.fieldPolicy = some "sales_limited" then
        .ok (customer.filter (fun kv => kv.1 ∈ salesAllowedFields))
      else .ok customer

/-- A `CustomerCreate.model_dump()`: every field key present, values
possibly `None` (inner `Option`); non-string values are carried as their
string rendering, which no modelled operation inspects. -/
abbrev PayloadDict := List (String × Option String)

/-- Reading `d.get(k)` on a dump dict: collapses an absent key and a stored
`None` to `none`, as `.get` does. -/
def payloadGet (d : PayloadDict) (k : String) : Option String :=
  (dictGet d k).getD none

/-- Python truthiness of an optional string (`None` and `""` are falsy). -/
def truthy (o : Option String) : Bool :=
  match o with
  | some s => s ≠ ""
  | none => false

/-- Outcome of `update_customer`: 403, 404, or the `update_dict` handed
to `update_one({"id": customer_id}, {"$set": update_dict})`. -/
inductive UpdateOutcome where
  | forbidden
  | notFound
  | ok (updateDict : PayloadDict)
deriving Repr, DecidableEq

/-- Endpoint `PUT /api/customers/{customer_id}` (`update_customer`): require the
`edit` action, locate the target by `{"id": customer_id}` alone, force
`csm_owner_id` to the caller when the effective scope is `"own"`,
auto-map `am_owner_id` from the CSM's `manager_id` when unset, and
resolve the owners' display names. The `updated_at` timestamp and the
health-score recomputation (wall clock and float arithmetic on fields no
claim mentions) are not modelled. -/
def updateCustomer (config : RoleConfig) (users : List User)
    (store : List Doc) (u : User) (cid : String) (payload : PayloadDict) :
    UpdateOutcome :=
  match requirePerm config u "customers" (some "edit") with
  | .denied => .forbidden
  | .ok _ =>
    match store.find? (fun d => dictGet d "id" == some cid) with
    | none => .notFound
    | some _existing =>
      let eff := getEffectivePermissions config (rolesOf u)
      let custScope := ((dictGet eff "customers").getD ModulePerm.empty).scope
      let effective1 :=
        if custScope = some "own" then dictSet payload "csm_owner_id" (some u.id)
        else payload
      let effective2 :=
        if truthy (payloadGet effective1 "csm_owner_id") &&
            !truthy (payloadGet effective1 "am_owner_id") then
          match users.find?
              (fun v => v.id = (payloadGet effective1 "csm_owner_id").getD "") with
          | some csmUser =>
            if truthy csmUser.managerId then
              dictSet effective1 "am_owner_id" csmUser.managerId
            else effective1
          | none => effective1
        else effective1
      let csmName : Option String :=
        if truthy (payloadGet effective2 "csm_owner_id") then
          match users.find?
              (fun v => v.id = (payloadGet effective2 "csm_owner_id").getD "") with
          | some v => some v.name
          | none => none
        else none
      let amName : Option String :=
        if truthy (payloadGet effective2 "am_owner_id") then
          match users.find?
              (fun v => v.id = (payloadGet effective2 "am_owner_id").getD "") with
          | some v => some v.name
          | none => none
        else none
      .ok (dictSet (dictSet effective2 "csm_owner_name" csmName)
            "am_owner_name" amName)

/-- The `settings` document with id `"global"`, restricted to the field
the permission engine reads (`role_permissions`); the other settings
fields (tags, dropdowns, …) are never consulted by any claim. -/
structure SettingsDocM where
  rolePermissions : RoleConfig
deriving Repr, DecidableEq

/-- The module-level mutable state around the settings cache:
`db.settings` (as the `"global"` document, assumed already created and
backfilled), `SETTINGS_CACHE`, and `SETTINGS_CACHE_TIMESTAMP`
(seconds). -/
structure ServerState where
  settingsDb : SettingsDocM
  cache : Option SettingsDocM
  cacheTimestamp : Nat
deriving Repr, DecidableEq

/-- The TTL constant `CACHE_TTL = 300` seconds. -/
def CACHE_TTL : Nat := 300

/-- Implements `_ensure_settings(force_refresh)`: serve the cached document while it
is present and fresh (unless forced), otherwise read the stored document
and cache it with the current timestamp. The idempotent backfill
migrations are a no-op on an already well-formed document and are not
modelled. -/
def ensureSettings (st : ServerState) (now : Nat) (forceRefresh : Bool) :
    SettingsDocM × ServerState :=
  match st.cache with
  | some c =>
    if !forceRefresh && now - st.cacheTimestamp < CACHE_TTL then (c, st)
    else (st.settingsDb,
      { st with cache := some st.settingsDb, cacheTimestamp := now })
  | none =>
    (st.settingsDb,
      { st with cache := some st.settingsDb, cacheTimestamp := now })

/-- Endpoint `PUT /api/settings` (`update_settings`) for a payload carrying
`role_permissions`: read the current settings through the cache, merge
the payload over them, persist the merge — and return, leaving
`SETTINGS_CACHE` and its timestamp exactly as they were (the source
neither invalidates the cache nor calls
`_ensure_settings(force_refresh=True)` on this path). -/
def updateSettings (st : ServerState) (now : Nat)
    (newRolePerms : RoleConfig) : SettingsDocM × ServerState :=
  let res := ensureSettings st now false
  let merged := { res.1 with rolePermissions := newRolePerms }
  (merged, { res.2 with settingsDb := merged })

/-- The deployed `_get_effective_permissions`: the configuration
comes from `_ensure_settings()`, i.e. through the TTL cache. -/
def getEffectivePermissionsCached (st : ServerState) (now : Nat)
    (userRoles : List String) : Modules × ServerState :=
  let res := ensureSettings st now false
  (getEffectivePermissions res.1.rolePermissions userRoles, res.2)


/-- Projection of an `update_customer` outcome onto the `csm_owner_id`
value carried by the `$set` document (`none` when the call errored). -/
def updatedCsmOwner (o : UpdateOutcome) : Option (Option String) :=
  match o with
  | .ok d => some (payloadGet d "csm_owner_id")
  | _ => none

/-! ## Association-list (Python dict) lemmas -/

theorem lookup_map_set_self {α : Type} (k : String) (v : α) :
    ∀ d : List (String × α), (List.lookup k d).isSome = true →
      List.lookup k (d.map fun p => if p.1 = k then (k, v) else p) = some v := by
  intro d
  induction d with
  | nil => intro h; simp at h
  | cons p t ih =>
    intro h
    obtain ⟨a, b⟩ := p
    by_cases hk : a = k
    · subst hk
      simp [List.lookup_cons]
    · have hbeq : (k == a) = false := beq_eq_false_iff_ne.mpr (fun he => hk he.symm)
      simp only [List.lookup_cons, hbeq] at h
      simp only [List.map_cons, List.lookup_cons]
      rw [if_neg (show ¬((a, b).1 = k) from hk)]
      simp only [List.lookup_cons, hbeq]
      exact ih h

theorem lookup_append_single_self {α : Type} (k : String) (v : α) :
    ∀ d : List (String × α), List.lookup k d = none →
      List.lookup k (d ++ [(k, v)]) = some v := by
  intro d
  induction d with
  | nil => simp [List.lookup_cons]
  | cons p t ih =>
    intro h
    obtain ⟨a, b⟩ := p
    cases hbeq : (k == a) with
    | true => simp [List.lookup_cons, hbeq] at h
    | false =>
      simp only [List.lookup_cons, hbeq] at h
      simp only [List.cons_append, List.lookup_cons, hbeq]
      exact ih h

theorem dictGet_dictSet_self {α : Type} (d : List (String × α)) (k : String) (v : α) :
    dictGet (dictSet d k v) k = some v := by
  unfold dictGet dictSet
  split
  · next h => exact lookup_map_set_self k v d h
  · next h =>
    cases hl : List.lookup k d with
    | none => exact lookup_append_single_self k v d hl
    | some w => simp [hl] at h

theorem lookup_map_set_ne {α : Type} (k k' : String) (v : α) (hne : k' ≠ k) :
    ∀ d : List (String × α),
      List.lookup k' (d.map fun p => if p.1 = k then (k, v) else p) =
        List.lookup k' d := by
  intro d
  induction d with
  | nil => simp
  | cons p t ih =>
    obtain ⟨a, b⟩ := p
    by_cases hk : a = k
    · subst hk
      have hbeq : (k' == a) = false := beq_eq_false_iff_ne.mpr hne
      simp only [List.map_cons, List.lookup_cons, if_true, eq_self_iff_true,
        hbeq]
      exact ih
    · simp only [List.map_cons, List.lookup_cons]
      rw [if_neg (show ¬((a, b).1 = k) from hk)]
      simp only [List.lookup_cons]
      cases hbeq : (k' == a) with
      | true => rfl
      | false => exact ih

theorem lookup_append_single_ne {α : Type} (k k' : String) (v : α) (hne : k' ≠ k) :
    ∀ d : List (String × α),
      List.lookup k' (d ++ [(k, v)]) = List.lookup k' d := by
  intro d
  induction d with
  | nil => simp [List.lookup_cons, beq_eq_false_iff_ne.mpr hne]
  | cons p t ih =>
    obtain ⟨a, b⟩ := p
    simp only [List.cons_append, List.lookup_cons]
    cases hbeq : (k' == a) with
    | true => rfl
    | false => exact ih

theorem dictGet_dictSet_ne {α : Type} (d : List (String × α)) (k k' : String)
    (v : α) (hne : k' ≠ k) :
    dictGet (dictSet d k v) k' = dictGet d k' := by
  unfold dictGet dictSet
  split
  · exact lookup_map_set_ne k k' v hne d
  · exact lookup_append_single_ne k k' v hne d


/-! ## Enforcement-gate helper lemmas -/

/-- Membership extraction for a successful association-list lookup. -/
theorem mem_of_lookup_eq_some {α : Type} {l : List (String × α)} {k : String}
    {v : α} (h : List.lookup k l = some v) : (k, v) ∈ l := by
  rw [List.lookup_eq_some_iff] at h
  obtain ⟨l₁, l₂, rfl, -⟩ := h
  simp

/-- Characterisation of `_has_perm` returning `False`: the module is not
enabled, or the requested action's flag is falsy. -/
theorem hasPerm_eq_false_iff (eff : Modules) (moduleKey : String)
    (action : Option String) :
    hasPerm eff moduleKey action = false ↔
      ((dictGet eff moduleKey).getD ModulePerm.empty).enabled.getD false = false ∨
      ∃ a, action = some a ∧
        actionsGet ((dictGet eff moduleKey).getD ModulePerm.empty).actions a
          = false := by
  unfold hasPerm
  cases he : ((dictGet eff moduleKey).getD ModulePerm.empty).enabled.getD false with
  | false => simp [he]
  | true =>
    cases action with
    | none => simp [he]
    | some a => simp [he]

/-- An effective set whose action flags are all false denies every
action-qualified request. -/
theorem hasPerm_action_false_of_all_false (eff : Modules)
    (h : ∀ p ∈ eff, ∀ q ∈ p.2.actions, q.2 = false) (m a : String) :
    hasPerm eff m (some a) = false := by
  cases hl : dictGet eff m with
  | none =>
    unfold hasPerm
    rw [hl]
    rfl
  | some md =>
    have hacts : ∀ q ∈ md.actions, q.2 = false := h (m, md) (mem_of_lookup_eq_some hl)
    unfold hasPerm
    rw [hl]
    cases he : md.enabled.getD false with
    | false => simp [he]
    | true =>
      cases ha : dictGet md.actions a with
      | none => simp [he, actionsGet, ha]
      | some b =>
        have hb := hacts (a, b) (mem_of_lookup_eq_some ha)
        simp only at hb
        simp [he, actionsGet, ha, hb]

/-- A granted `_require_perm` returns exactly the resolved effective
permission map. -/
theorem requirePerm_ok_eff {config : RoleConfig} {u : User}
    {moduleKey : String} {action : Option String} {eff : Modules}
    (h : requirePerm config u moduleKey action = .ok eff) :
    eff = getEffectivePermissions config (rolesOf u) := by
  simp only [requirePerm] at h
  split at h
  · exact (PermResult.ok.inj h).symm
  · exact absurd h (by simp)

/-! ## The claims -/

/-- Claim C1 counterexample: a user with an empty role set is resolved as
holding `READ_ONLY` (the `or ["READ_ONLY"]` fallback), so under the
default configuration the `dashboard` module is enabled in the effective
set and `_require_perm` grants the action-less call — the claimed
"every module enabled=false / every authorize Denied" fails. -/
theorem empty_roles_not_all_denied :
    rolesOf ⟨"u1", [], none, none, "U"⟩ = [] ∧
    ((dictGet (getEffectivePermissions defaultRolePermissions
        (rolesOf ⟨"u1", [], none, none, "U"⟩)) "dashboard").getD
      ModulePerm.empty).enabled = some true ∧
    requirePerm defaultRolePermissions ⟨"u1", [], none, none, "U"⟩
      "dashboard" none ≠ .denied := by decide

/-- Claim C1 (amended): a user with an empty role set is resolved exactly
as a `READ_ONLY` user under every configuration, and under the default
configuration every authorize call that names an action is Denied for
every module and every action — action-less calls on modules `READ_ONLY`
enables succeed, so the denial is not universal. -/
theorem empty_roles_fall_back_to_read_only (u : User) (h : rolesOf u = [])
    (config : RoleConfig) (moduleKey action : String) :
    getEffectivePermissions config (rolesOf u) =
      getEffectivePermissions config ["READ_ONLY"] ∧
    requirePerm defaultRolePermissions u moduleKey (some action) = .denied := by
  have heq : ∀ cfg : RoleConfig, getEffectivePermissions cfg (rolesOf u) =
      getEffectivePermissions cfg ["READ_ONLY"] := by
    intro cfg
    rw [h]
    rfl
  refine ⟨heq config, ?_⟩
  have hall : ∀ p ∈ getEffectivePermissions defaultRolePermissions ["READ_ONLY"],
      ∀ q ∈ p.2.actions, q.2 = false := by decide
  unfold requirePerm
  simp only [heq defaultRolePermissions]
  rw [hasPerm_action_false_of_all_false _ hall moduleKey action]
  simp

/-- Witness for the amended claim C1 at a concrete empty-role user. -/
theorem empty_roles_fall_back_witness :
    getEffectivePermissions defaultRolePermissions
        (rolesOf ⟨"u1", [], none, none, "U"⟩) =
      getEffectivePermissions defaultRolePermissions ["READ_ONLY"] ∧
    requirePerm defaultRolePermissions ⟨"u1", [], none, none, "U"⟩
      "customers" (some "edit") = .denied :=
  empty_roles_fall_back_to_read_only ⟨"u1", [], none, none, "U"⟩ (by decide)
    defaultRolePermissions "customers" "edit"

/-- Claim C2 counterexample: a CSM-only user whose configured `customers`
scope is `team` receives the `csm_owner_id == user.id` (own) filter, not
the hierarchy filter the scope dictates — the role-based fallback
`("CSM" in roles and "AM" not in roles)` fires before the configured
scope is compared against `team`. -/
theorem csm_with_team_scope_gets_own_filter :
    ((dictGet (getEffectivePermissions
        [("CSM", [("customers", mpCED "team" true true false)])]
        (rolesOf ⟨"u1", ["CSM"], none, none, "U"⟩)) "customers").getD
      ModulePerm.empty).scope = some "team" ∧
    customerScopeQuery [("CSM", [("customers", mpCED "team" true true false)])]
      [] ⟨"u1", ["CSM"], none, none, "U"⟩ = .own "u1" ∧
    CustomerFilter.own "u1" ≠ .team "u1" (managedCsmIds [] "u1") := by decide

/-- Claim C2 (amended): for users holding none of the roles with
hard-coded fallbacks (`ADMIN`, `CS_OPS`, `CS_LEADER`, `SALES`, `CSM`,
`AM`), `_customer_scope_query` translates the effective `customers` scope
exactly as the claim dictates: `all` to the unrestricted filter, `own` to
the self filter, `team` to the one-level hierarchy filter, and `none`,
missing, or unknown to the match-nothing filter. -/
theorem scope_translation_exact_without_role_fallbacks (config : RoleConfig)
    (users : List User) (u : User)
    (h : ∀ r ∈ rolesOf u,
      r ∉ (["ADMIN", "CS_OPS", "CS_LEADER", "SALES", "CSM", "AM"] : List String)) :
    customerScopeQuery config users u =
      (if ((dictGet (getEffectivePermissions config (rolesOf u))
            "customers").getD ModulePerm.empty).scope = some "all" then .all
       else if ((dictGet (getEffectivePermissions config (rolesOf u))
            "customers").getD ModulePerm.empty).scope = some "own" then
         .own u.id
       else if ((dictGet (getEffectivePermissions config (rolesOf u))
            "customers").getD ModulePerm.empty).scope = some "team" then
         .team u.id (managedCsmIds users u.id)
       else .noneMatch) := by
  have hadm : ((rolesOf u).any fun r => decide (r ∈ ROLE_ADMINISH)) = false := by
    rw [List.any_eq_false]
    intro r hr
    simp only [decide_eq_true_eq]
    intro hmem
    apply h r hr
    simp only [ROLE_ADMINISH, List.mem_cons, List.mem_singleton,
      List.not_mem_nil, or_false] at hmem
    rcases hmem with rfl | rfl | rfl <;> decide
  have hS : "SALES" ∉ rolesOf u := fun hm => h _ hm (by decide)
  have hC : "CSM" ∉ rolesOf u := fun hm => h _ hm (by decide)
  have hA : "AM" ∉ rolesOf u := fun hm => h _ hm (by decide)
  by_cases h1 : ((dictGet (getEffectivePermissions config (rolesOf u))
      "customers").getD ModulePerm.empty).scope = some "own"
  · simp [customerScopeQuery, hadm, hS, hC, hA, h1]
  · by_cases h2 : ((dictGet (getEffectivePermissions config (rolesOf u))
        "customers").getD ModulePerm.empty).scope = some "team"
    · simp [customerScopeQuery, hadm, hS, hC, hA, h1, h2]
    · by_cases h3 : ((dictGet (getEffectivePermissions config (rolesOf u))
          "customers").getD ModulePerm.empty).scope = some "all"
      · simp [customerScopeQuery, hadm, hS, hC, hA, h1, h2, h3]
      · simp [customerScopeQuery, hadm, hS, hC, hA, h1, h2, h3]

/-- Witness for the amended claim C2: a `READ_ONLY` user under the
default configuration (scope `own`) receives the self filter. -/
theorem scope_translation_witness :
    customerScopeQuery defaultRolePermissions []
      ⟨"u9", ["READ_ONLY"], none, none, "R"⟩ = .own "u9" :=
  (scope_translation_exact_without_role_fallbacks defaultRolePermissions []
    ⟨"u9", ["READ_ONLY"], none, none, "R"⟩ (by decide)).trans (by decide)

/-- Claim C3: when the effective `customers` permission carries
`field_policy = "sales_limited"`, every row returned by the list endpoint
and every document returned by the single-fetch endpoint contains only
allow-listed fields; in particular neither a `website` nor a
`stakeholders` field ever appears. -/
theorem sales_limited_projects_allowlist (config : RoleConfig)
    (users : List User) (store : List Doc) (u : User)
    (hpol : ((dictGet (getEffectivePermissions config (rolesOf u))
        "customers").getD ModulePerm.empty).fieldPolicy =
      some "sales_limited") :
    (∀ rows, getCustomers config users store u = .ok rows →
      ∀ d ∈ rows, ∀ kv ∈ d, kv.1 ∈ salesLimitedProjection ∧
        kv.1 ≠ "website" ∧ kv.1 ≠ "stakeholders") ∧
    (∀ cid d, getCustomer config users store u cid = .ok d →
      ∀ kv ∈ d, kv.1 ∈ salesAllowedFields ∧
        kv.1 ≠ "website" ∧ kv.1 ≠ "stakeholders") := by
  have hf1 : ∀ s ∈ salesLimitedProjection,
      s ≠ "website" ∧ s ≠ "stakeholders" := by decide
  have hf2 : ∀ s ∈ salesAllowedFields,
      s ≠ "website" ∧ s ≠ "stakeholders" := by decide
  constructor
  · intro rows hrows d hd kv hkv
    unfold getCustomers at hrows
    cases hp : requirePerm config u "customers" none with
    | denied => rw [hp] at hrows; exact absurd hrows (by simp)
    | ok eff =>
      rw [hp] at hrows
      rw [requirePerm_ok_eff hp] at hrows
      simp only at hrows
      rw [if_pos hpol] at hrows
      have hmap := Except.ok.inj hrows
      rw [← hmap] at hd
      obtain ⟨d0, -, rfl⟩ := List.mem_map.mp hd
      have hkv' := (List.mem_filter.mp hkv).2
      have hmem : kv.1 ∈ salesLimitedProjection := by simpa using hkv'
      exact ⟨hmem, hf1 _ hmem⟩
  · intro cid d hget kv hkv
    unfold getCustomer at hget
    cases hp : requirePerm config u "customers" none with
    | denied => rw [hp] at hget; exact absurd hget (by simp)
    | ok eff =>
      rw [hp] at hget
      rw [requirePerm_ok_eff hp] at hget
      cases hc : getCustomerOr404 config users store cid u with
      | none => rw [hc] at hget; exact absurd hget (by simp)
      | some customer =>
        rw [hc] at hget
        simp only at hget
        rw [if_pos hpol] at hget
        have hd := Except.ok.inj hget
        rw [← hd] at hkv
        have hkv' := (List.mem_filter.mp hkv).2
        have hmem : kv.1 ∈ salesAllowedFields := by simpa using hkv'
        exact ⟨hmem, hf2 _ hmem⟩

/-- Witness for claim C3: a SALES user fetching a customer that stores a
`website` field gets a document whose `id` field is allow-listed (the
projected document itself is checked in the proof). -/
theorem sales_limited_witness :
    (("id", "c1") : String × String).1 ∈ salesAllowedFields ∧
    ("id" : String) ≠ "website" ∧ ("id" : String) ≠ "stakeholders" :=
  (sales_limited_projects_allowlist defaultRolePermissions []
      [[("id", "c1"), ("company_name", "A"), ("website", "http")]]
      ⟨"s1", ["SALES"], none, none, "S"⟩ (by decide)).2
    "c1" [("id", "c1"), ("company_name", "A")] rfl
    ("id", "c1") (by decide)

/-- Claim C4: `_require_perm` returns Denied exactly when the effective
module permission is not enabled, or an action is specified whose flag
(absent keys counting as false) is false; otherwise it returns the
effective permission set. -/
theorem require_perm_denied_iff (config : RoleConfig) (u : User)
    (moduleKey : String) (action : Option String) :
    (requirePerm config u moduleKey action = .denied ↔
      ((dictGet (getEffectivePermissions config (rolesOf u)) moduleKey).getD
          ModulePerm.empty).enabled.getD false = false ∨
      ∃ a, action = some a ∧
        actionsGet ((dictGet (getEffectivePermissions config (rolesOf u))
            moduleKey).getD ModulePerm.empty).actions a = false) ∧
    (requirePerm config u moduleKey action ≠ .denied →
      requirePerm config u moduleKey action =
        .ok (getEffectivePermissions config (rolesOf u))) := by
  unfold requirePerm
  cases hp : hasPerm (getEffectivePermissions config (rolesOf u)) moduleKey action with
  | false =>
    have hRHS := (hasPerm_eq_false_iff _ _ _).mp hp
    simp [hp, hRHS]
  | true =>
    have hn := (hasPerm_eq_false_iff (getEffectivePermissions config (rolesOf u))
      moduleKey action).mpr
    simp only [hp] at hn
    simp [hp]
    refine ⟨?_, ?_⟩
    · cases he : ((dictGet (getEffectivePermissions config (rolesOf u))
          moduleKey).getD ModulePerm.empty).enabled.getD false with
      | true => rfl
      | false => exact absurd (hn (Or.inl he)) (by simp)
    · intro x hx
      cases ha : actionsGet ((dictGet (getEffectivePermissions config
          (rolesOf u)) moduleKey).getD ModulePerm.empty).actions x with
      | true => rfl
      | false => exact absurd (hn (Or.inr ⟨x, hx, ha⟩)) (by simp)

/-- Witness for claim C4: a `READ_ONLY` user is denied `customers`/`edit`
because the effective flag is false. -/
theorem require_perm_denied_iff_witness :
    requirePerm defaultRolePermissions ⟨"u7", ["READ_ONLY"], none, none, "R"⟩
      "customers" (some "edit") = .denied :=
  (require_perm_denied_iff defaultRolePermissions
      ⟨"u7", ["READ_ONLY"], none, none, "R"⟩ "customers" (some "edit")).1.mpr
    (Or.inr ⟨"edit", rfl, by decide⟩)

/-- Claim C5: the team filter matches exactly the customers owned by the
user as AM or owned (as CSM) by a direct report holding the CSM role —
one level of the manager hierarchy; a customer owned by a CSM whose
manager's manager is the user does not match. -/
theorem team_filter_is_one_level (users : List User) (uid : String) :
    (∀ d : Doc,
      filterMatches (.team uid (managedCsmIds users uid)) d = true ↔
        (dictGet d "am_owner_id" = some uid ∨
         ∃ v ∈ users, v.managerId = some uid ∧
           (v.role = some "CSM" ∨ "CSM" ∈ v.roles) ∧ v.id ≠ "" ∧
           dictGet d "csm_owner_id" = some v.id)) ∧
    (∀ (d : Doc) (m v : User), v ∈ users → v.managerId = some m.id →
      m.managerId = some uid → m.id ≠ uid →
      (∀ w ∈ users, w.id = v.id → w.managerId = some m.id) →
      dictGet d "am_owner_id" ≠ some uid →
      dictGet d "csm_owner_id" = some v.id →
      filterMatches (.team uid (managedCsmIds users uid)) d = false) := by
  have h1 : ∀ d : Doc,
      filterMatches (.team uid (managedCsmIds users uid)) d = true ↔
        (dictGet d "am_owner_id" = some uid ∨
         ∃ v ∈ users, v.managerId = some uid ∧
           (v.role = some "CSM" ∨ "CSM" ∈ v.roles) ∧ v.id ≠ "" ∧
           dictGet d "csm_owner_id" = some v.id) := by
    intro d
    simp only [filterMatches, Bool.or_eq_true, beq_iff_eq, List.any_eq_true,
      managedCsmIds, List.mem_filter, List.mem_map, decide_eq_true_eq]
    constructor
    · rintro (ha | ⟨i, ⟨⟨v, hvP, rfl⟩, hne⟩, hd⟩)
      · exact Or.inl ha
      · exact Or.inr ⟨v, hvP.1, hvP.2.1, hvP.2.2, hne, hd⟩
    · rintro (ha | ⟨v, hv, hm, hr, hid, hd⟩)
      · exact Or.inl ha
      · exact Or.inr ⟨v.id, ⟨⟨v, ⟨hv, hm, hr⟩, rfl⟩, hid⟩, hd⟩
  refine ⟨h1, ?_⟩
  intro d m v hv hvm hm hne huniq ham hcsm
  cases hmatch : filterMatches (.team uid (managedCsmIds users uid)) d with
  | false => rfl
  | true =>
    rcases (h1 d).mp hmatch with ha | ⟨w, hw, hwm, -, -, hwid⟩
    · exact absurd ha ham
    · rw [hcsm] at hwid
      have hweq : w.id = v.id := (Option.some.inj hwid).symm
      have hwm' := huniq w hw hweq
      rw [hwm] at hwm'
      exact absurd (Option.some.inj hwm').symm hne

/-- Witness for claim C5: the customer of a CSM two levels below the
user is not matched by the user's team filter. -/
theorem team_filter_witness :
    filterMatches
      (.team "boss"
        (managedCsmIds
          [⟨"am1", ["AM"], none, some "boss", "A"⟩,
           ⟨"c1", ["CSM"], none, some "am1", "C"⟩] "boss"))
      [("id", "x"), ("csm_owner_id", "c1")] = false :=
  (team_filter_is_one_level
      [⟨"am1", ["AM"], none, some "boss", "A"⟩,
       ⟨"c1", ["CSM"], none, some "am1", "C"⟩] "boss").2
    [("id", "x"), ("csm_owner_id", "c1")]
    ⟨"am1", ["AM"], none, some "boss", "A"⟩
    ⟨"c1", ["CSM"], none, some "am1", "C"⟩
    (by decide) rfl rfl (by decide) (by decide) (by decide) rfl

/-- Claim C6: the merged scope is whichever of the two scopes ranks
higher in the lattice none(0) < own(1) < team(2) < all(3) (unknown or
missing ranking as none), ties keeping the first argument's scope;
consequently its rank is at least the maximum of the two ranks. -/
theorem merge_scope_is_lattice_max (a b : ModulePerm) :
    (mergeModulePerms a b).scope =
      (if scopeRank a.scope ≥ scopeRank b.scope then a.scope else b.scope) ∧
    scopeRank (mergeModulePerms a b).scope ≥
      max (scopeRank a.scope) (scopeRank b.scope) := by
  refine ⟨rfl, ?_⟩
  show scopeRank (if scopeRank a.scope ≥ scopeRank b.scope then a.scope
    else b.scope) ≥ _
  split <;> omega

/-- Claim C7: provided no stored customer carries the sentinel id
`"__none__"`, the scoped single-entity fetch raises 404 exactly when no
stored customer both has the requested id and matches the caller's scope
filter — a missing id and an out-of-scope id are indistinguishable. -/
theorem scoped_fetch_404_blind (config : RoleConfig) (users : List User)
    (store : List Doc) (cid : String) (u : User)
    (h : ∀ d ∈ store, dictGet d "id" ≠ some "__none__") :
    (getCustomerOr404 config users store cid u = none ↔
      ¬ ∃ d ∈ store, dictGet d "id" = some cid ∧
          filterMatches (customerScopeQuery config users u) d = true) := by
  unfold getCustomerOr404
  cases hf : customerScopeQuery config users u with
  | noneMatch =>
    have hL : store.find? (lookupQueryMatches .noneMatch cid) = none := by
      rw [List.find?_eq_none]
      intro d hd
      simp only [lookupQueryMatches, beq_iff_eq]
      simpa using h d hd
    have hR : ¬ ∃ d ∈ store, dictGet d "id" = some cid ∧
        filterMatches .noneMatch d = true := by
      rintro ⟨d, hd, -, hm⟩
      exact h d hd (by simpa [filterMatches] using hm)
    exact iff_of_true hL hR
  | all =>
    rw [List.find?_eq_none]
    constructor
    · rintro hall ⟨d, hd, hid, hm⟩
      exact hall d hd (by simp [lookupQueryMatches, beq_iff_eq, hid, hm])
    · intro hnex d hd
      simp only [lookupQueryMatches, Bool.and_eq_true, beq_iff_eq]
      rintro ⟨hid, hm⟩
      exact hnex ⟨d, hd, hid, hm⟩
  | own uid =>
    rw [List.find?_eq_none]
    constructor
    · rintro hall ⟨d, hd, hid, hm⟩
      exact hall d hd (by simp [lookupQueryMatches, beq_iff_eq, hid, hm])
    · intro hnex d hd
      simp only [lookupQueryMatches, Bool.and_eq_true, beq_iff_eq]
      rintro ⟨hid, hm⟩
      exact hnex ⟨d, hd, hid, hm⟩
  | team uid ids =>
    rw [List.find?_eq_none]
    constructor
    · rintro hall ⟨d, hd, hid, hm⟩
      exact hall d hd (by simp [lookupQueryMatches, beq_iff_eq, hid, hm])
    · intro hnex d hd
      simp only [lookupQueryMatches, Bool.and_eq_true, beq_iff_eq]
      rintro ⟨hid, hm⟩
      exact hnex ⟨d, hd, hid, hm⟩

/-- Witness for claim C7: a CSM fetching an existing customer owned by
someone else gets the same 404 as for a missing id. -/
theorem scoped_fetch_404_witness :
    getCustomerOr404 defaultRolePermissions []
      [[("id", "c1"), ("csm_owner_id", "bob")]] "c1"
      ⟨"alice", ["CSM"], none, none, "AL"⟩ = none :=
  (scoped_fetch_404_blind defaultRolePermissions []
      [[("id", "c1"), ("csm_owner_id", "bob")]] "c1"
      ⟨"alice", ["CSM"], none, none, "AL"⟩ (by decide)).mpr (by decide)

/-- Claim C8 (refuted; the code is the bug): after an admin settings
write at t=10 that replaces the `READ_ONLY` permissions, the stored
configuration is updated but a permission evaluation at t=20 — after the
write completed, within the 300 s TTL — still serves the pre-write
cached configuration: the stale cache grants `dashboard` although the
stored configuration disables it. -/
theorem settings_cache_serves_stale_after_update :
    (updateSettings
        ⟨⟨defaultRolePermissions⟩, some ⟨defaultRolePermissions⟩, 0⟩ 10
        [("READ_ONLY", [("dashboard", mpDisabled)])]).2.settingsDb.rolePermissions
      = [("READ_ONLY", [("dashboard", mpDisabled)])] ∧
    (getEffectivePermissionsCached
        (updateSettings
          ⟨⟨defaultRolePermissions⟩, some ⟨defaultRolePermissions⟩, 0⟩ 10
          [("READ_ONLY", [("dashboard", mpDisabled)])]).2 20 ["READ_ONLY"]).1
      = getEffectivePermissions defaultRolePermissions ["READ_ONLY"] ∧
    hasPerm
      (getEffectivePermissionsCached
        (updateSettings
          ⟨⟨defaultRolePermissions⟩, some ⟨defaultRolePermissions⟩, 0⟩ 10
          [("READ_ONLY", [("dashboard", mpDisabled)])]).2 20 ["READ_ONLY"]).1
      "dashboard" none = true ∧
    hasPerm
      (getEffectivePermissions
        [("READ_ONLY", [("dashboard", mpDisabled)])] ["READ_ONLY"])
      "dashboard" none = false := by decide

/-- Claim C9: a user holding any of `ADMIN`, `CS_OPS`, `CS_LEADER` gets
the unrestricted customer filter for every configuration — the
configured scope (or a disabled `customers` module) is never
consulted. -/
theorem adminish_scope_unrestricted (config : RoleConfig) (users : List User)
    (u : User) (h : ∃ r ∈ rolesOf u, r ∈ ROLE_ADMINISH) :
    customerScopeQuery config users u = .all := by
  unfold customerScopeQuery
  have hany : (rolesOf u).any (fun r => decide (r ∈ ROLE_ADMINISH)) = true := by
    rw [List.any_eq_true]
    obtain ⟨r, hr, hmem⟩ := h
    exact ⟨r, hr, by simpa using hmem⟩
  simp [hany]

/-- Witness for claim C9: an ADMIN whose configuration disables the
`customers` module still gets the unrestricted filter. -/
theorem adminish_scope_witness :
    customerScopeQuery [("ADMIN", [("customers", mpDisabled)])] []
      ⟨"a1", ["ADMIN"], none, none, "A"⟩ = .all :=
  adminish_scope_unrestricted [("ADMIN", [("customers", mpDisabled)])] []
    ⟨"a1", ["ADMIN"], none, none, "A"⟩ ⟨"ADMIN", by decide, by decide⟩

/-- Claim C10: for a caller granted `customers`/`edit`, `update_customer`
locates its target by id alone — it 404s exactly when no customer with
the id exists, and proceeds on any existing id regardless of the
caller's scope filter; when the caller's effective `customers` scope is
`own`, the written document carries the caller's own id as
`csm_owner_id`. -/
theorem update_customer_ignores_scope_filter (config : RoleConfig)
    (users : List User) (store : List Doc) (u : User) (cid : String)
    (payload : PayloadDict)
    (hperm : hasPerm (getEffectivePermissions config (rolesOf u)) "customers"
      (some "edit") = true) :
    ((∀ d ∈ store, dictGet d "id" ≠ some cid) →
      updateCustomer config users store u cid payload = .notFound) ∧
    ((∃ d ∈ store, dictGet d "id" = some cid) →
      updateCustomer config users store u cid payload ≠ .forbidden ∧
      updateCustomer config users store u cid payload ≠ .notFound ∧
      (((dictGet (getEffectivePermissions config (rolesOf u)) "customers").getD
          ModulePerm.empty).scope = some "own" →
        updatedCsmOwner (updateCustomer config users store u cid payload) =
          some (some u.id))) := by
  have hrp : requirePerm config u "customers" (some "edit") =
      .ok (getEffectivePermissions config (rolesOf u)) := by
    simp only [requirePerm]
    rw [hperm]
    simp
  constructor
  · intro hnone
    have hfind : store.find? (fun d => dictGet d "id" == some cid) = none := by
      rw [List.find?_eq_none]
      intro d hd
      simpa [beq_iff_eq] using hnone d hd
    unfold updateCustomer
    rw [hrp, hfind]
  · intro hex
    cases hf : store.find? (fun d => dictGet d "id" == some cid) with
    | none =>
      rw [List.find?_eq_none] at hf
      obtain ⟨d, hd, hid⟩ := hex
      exact absurd (by simp [beq_iff_eq, hid] :
        (fun d => dictGet d "id" == some cid) d = true) (hf d hd)
    | some d0 =>
      unfold updateCustomer
      rw [hrp, hf]
      refine ⟨by simp, by simp, ?_⟩
      intro hscope
      simp only [updatedCsmOwner, payloadGet]
      rw [if_pos hscope]
      rw [dictGet_dictSet_ne _ _ _ _ (by decide),
        dictGet_dictSet_ne _ _ _ _ (by decide)]
      split
      · split
        · split
          · rw [dictGet_dictSet_ne _ _ _ _ (by decide), dictGet_dictSet_self]
            rfl
          · rw [dictGet_dictSet_self]
            rfl
        · rw [dictGet_dictSet_self]
          rfl
      · rw [dictGet_dictSet_self]
        rfl

/-- Witness for claim C10: a CSM (scope `own`) editing a customer owned
by someone else succeeds, and the written `csm_owner_id` is the
caller's id. -/
theorem update_customer_witness :
    updatedCsmOwner
      (updateCustomer defaultRolePermissions []
        [[("id", "c9"), ("csm_owner_id", "other")]]
        ⟨"u2", ["CSM"], none, none, "C2"⟩ "c9"
        [("company_name", some "A"), ("csm_owner_id", some "other"),
         ("am_owner_id", none)]) = some (some "u2") :=
  ((update_customer_ignores_scope_filter defaultRolePermissions []
      [[("id", "c9"), ("csm_owner_id", "other")]]
      ⟨"u2", ["CSM"], none, none, "C2"⟩ "c9"
      [("company_name", some "A"), ("csm_owner_id", some "other"),
       ("am_owner_id", none)] (by decide)).2
    ⟨[("id", "c9"), ("csm_owner_id", "other")], by decide, by decide⟩).2.2
    (by decide)

end Elevate
